import Mathlib

/-!
# Verification of zap2xml (GnatGoSplat/zap2xml, src/zap2xml.py)

Shallow embedding of the fetch–cache–normalize–assemble–serialize pipeline
pieces referenced by the claims, translated from `src/zap2xml.py`.

Conventions: Python dicts keyed by string ids become association lists or
explicit optional fields; machine time values are `Int` epoch seconds or
milliseconds; fallible parsing returns `Option`.
-/

namespace Zap2xml

/-- Canonical Program record: only the fields the claims touch.  A missing
dict key is `none` / `[]`.  Genres mirror the Python dict `programs[cp]['genres']`
as an insertion-ordered association list name ↦ rank. -/
structure Prog where
  title : Option String := none
  description : Option String := none
  rating : Option String := none
  genres : List (String × Nat) := []
  originalAirDate : Option Int := none
deriving Repr, DecidableEq

/-! ### String primitives

Python string operations, modelled over the character list so that every
instance evaluates by kernel reduction. -/

def isPrefixList [DecidableEq α] : List α → List α → Bool
  | [], _ => true
  | _ :: _, [] => false
  | a :: as, b :: bs => a = b && isPrefixList as bs

def containsSubList [DecidableEq α] (pat : List α) : List α → Bool
  | [] => isPrefixList pat []
  | b :: bs => isPrefixList pat (b :: bs) || containsSubList pat bs

/-- Python `s.startswith(pre)`. -/
def strStartsWith (s pre : String) : Bool := isPrefixList pre.data s.data

/-- Python `s.lower()` (ASCII case folding, as in the ids involved). -/
def strToLower (s : String) : String := ⟨s.data.map Char.toLower⟩

/-- Python `s[a:b]` on a string. -/
def strSlice (s : String) (a b : Nat) : String := ⟨(s.data.drop a).take (b - a)⟩

/-- Python `s < t`: lexicographic comparison by code point. -/
def charListLt : List Char → List Char → Bool
  | [], [] => false
  | [], _ :: _ => true
  | _ :: _, [] => false
  | a :: as, b :: bs => a < b || (a = b && charListLt as bs)

/-! ## Time parsing: `str2time1` / `str2time2`

`str2time1` wraps `datetime.strptime(s, '%Y-%m-%dT%H:%M:%SZ')` (UTC) in a
bare `except: return 0`; `str2time2` is the same with format
`'%Y-%m-%dT%H:%MZ'` (zap2xml.py lines 1208-1222).  Python's `_strptime`
compiles the format to a case-insensitive regex: `%Y` is exactly four
digits; `%m` is `1[0-2]|0[1-9]|[1-9]`; `%d` is `3[01]|[12]\d|0[1-9]|[1-9]`;
`%H` is `2[0-3]|[0-1]\d|\d`; `%M`/`%S` are `[0-5]\d|\d`; the whole string
must be consumed.  `datetime(...)` additionally validates year ≥ 1 and
day ≤ length of the month; `.timestamp()` on the UTC-aware result is the
exact signed epoch-second count. -/

/-- Numeric value of an ASCII digit. -/
def digitVal (c : Char) : Nat := c.toNat - 48

/-- `%Y`: exactly four ASCII digits. -/
def parseYear4 : List Char → Option (Nat × List Char)
  | a :: b :: c :: d :: rest =>
      if a.isDigit && b.isDigit && c.isDigit && d.isDigit then
        some (((digitVal a * 10 + digitVal b) * 10 + digitVal c) * 10 + digitVal d, rest)
      else none
  | _ => none

/-- A one-or-two digit field.  The two-digit alternative is taken when the
next two characters are digits whose value lies in `[lo2, hi2]`; otherwise a
single digit with value ≥ `lo1` is taken.  This matches the greedy
alternation of the `_strptime` regexes because every field is followed by a
non-digit literal, so regex backtracking can never rescue a rejected
two-digit read whose second character is a digit. -/
def parse12 (lo2 hi2 lo1 : Nat) : List Char → Option (Nat × List Char)
  | c1 :: c2 :: rest =>
      if c1.isDigit && c2.isDigit then
        let v := digitVal c1 * 10 + digitVal c2
        if lo2 ≤ v && v ≤ hi2 then some (v, rest)
        else if lo1 ≤ digitVal c1 then some (digitVal c1, c2 :: rest)
        else none
      else if c1.isDigit && lo1 ≤ digitVal c1 then some (digitVal c1, c2 :: rest)
      else none
  | [c1] =>
      if c1.isDigit && lo1 ≤ digitVal c1 then some (digitVal c1, []) else none
  | [] => none

/-- Expect one literal character, case-insensitively (the `_strptime` regex
is compiled with `re.IGNORECASE`). -/
def expectLit (lit : Char) : List Char → Option (List Char)
  | c :: rest => if c.toLower = lit.toLower then some rest else none
  | [] => none

/-- Gregorian leap year. -/
def isLeap (y : Nat) : Bool := (y % 4 = 0 && y % 100 ≠ 0) || y % 400 = 0

/-- Length of a month, as validated by `datetime.__new__`. -/
def daysInMonth (y m : Nat) : Nat :=
  if m = 2 then (if isLeap y then 29 else 28)
  else if m = 4 || m = 6 || m = 9 || m = 11 then 30
  else 31

/-- Days from 1970-01-01 to y-m-d (proleptic Gregorian, y ≥ 1),
Hinnant's civil-from-days inverse.  All intermediate arithmetic is on `Nat`
(`y ≥ 1` keeps the shifted year nonnegative); only the final epoch shift
is signed. -/
def daysFromCivil (y m d : Nat) : Int :=
  let y' := if m ≤ 2 then y - 1 else y
  let era := y' / 400
  let yoe := y' % 400
  let mp := if 2 < m then m - 3 else m + 9
  let doy := (153 * mp + 2) / 5 + (d - 1)
  let doe := yoe * 365 + yoe / 4 - yoe / 100 + doy
  ((era * 146097 + doe : Nat) : Int) - 719468

/-- Epoch seconds of a validated UTC civil datetime. -/
def epochSecs (y mo d h mi s : Nat) : Int :=
  daysFromCivil y mo d * 86400 + (h * 3600 + mi * 60 + s : Nat)

/-- Parse `'%Y-%m-%dT%H:%M:%SZ'` (when `withSecs`) or `'%Y-%m-%dT%H:%MZ'`,
requiring the whole input to be consumed, then apply `datetime`'s range
validation.  Returns the UTC epoch-second timestamp. -/
def parseFmt (withSecs : Bool) (l : List Char) : Option Int := do
  let (y, l) ← parseYear4 l
  let l ← expectLit '-' l
  let (mo, l) ← parse12 1 12 1 l
  let l ← expectLit '-' l
  let (d, l) ← parse12 1 31 1 l
  let l ← expectLit 'T' l
  let (h, l) ← parse12 0 23 0 l
  let l ← expectLit ':' l
  let (mi, l) ← parse12 0 59 0 l
  let (s, l) ← (if withSecs then do
      let l ← expectLit ':' l
      parse12 0 59 0 l
    else pure (0, l))
  let l ← expectLit 'Z' l
  match l with
  | [] => if 1 ≤ y && 1 ≤ d && d ≤ daysInMonth y mo then some (epochSecs y mo d h mi s) else none
  | _ :: _ => none

/-- `str2time1` (zap2xml.py lines 1208-1214): total; any parse failure is
swallowed by the bare `except` and yields 0. -/
def str2time1 (s : String) : Int :=
  match parseFmt true s.data with
  | some v => v
  | none => 0

/-- `str2time2` (zap2xml.py lines 1216-1222): same with minute precision. -/
def str2time2 (s : String) : Int :=
  match parseFmt false s.data with
  | some v => v
  | none => 0

/-- Whether a string matches `'%Y-%m-%dT%H:%M:%SZ'` (and survives
`datetime` validation), i.e. whether `strptime` would succeed. -/
def fmt1Matches (s : String) : Bool := (parseFmt true s.data).isSome

/-! ## Grid schedule entries (`parse_json`, lines 1035-1041)

`parse_json` stores each event into `self.schedule[cs][start_time]` with
fields `time`, `endTime` (camel case!), `program`, `station`.  Note the
renderer (`print_programmes`) only ever reads the lower-case key
`'endtime'`, which is written by the TVG adapter (`parse_tvg_grid`, line
868), never by `parse_json`; so the camel-case value is recorded here as a
plain field that nothing downstream reads. -/

structure SchedEntry where
  time : Int
  endTimeCamel : Int
  program : String
  station : String
deriving Repr, DecidableEq

/-- Association-list lookup for the per-station schedule dict. -/
def lookupAssoc (l : List (Int × SchedEntry)) (k : Int) : Option SchedEntry :=
  (l.find? (fun p => p.1 = k)).map Prod.snd

/-- Python dict assignment `d[k] = v`: overwrite an existing binding in
place, otherwise append. -/
def insertAssoc : List (Int × SchedEntry) → Int → SchedEntry → List (Int × SchedEntry)
  | [], k, v => [(k, v)]
  | p :: rest, k, v =>
    if p.1 = k then (k, v) :: rest else p :: insertAssoc rest k v

/-- The schedule insertion of `parse_json` (lines 1035-1041): the key is
`str2time1(startTime) * 1000`, so a missing or malformed start time keys
the airing at 0. -/
def scheduleInsert (sched : List (Int × SchedEntry)) (cs cp startS endS : String) :
    List (Int × SchedEntry) :=
  let k := str2time1 startS * 1000
  insertAssoc sched k ⟨k, str2time1 endS * 1000, cp, cs⟩

/-! ## Description merging (C1)

`parse_json` lines 1003-1005: a non-empty `shortDesc` from a grid payload
overwrites the stored description unconditionally.
`post_json_overview` lines 1176-1179: for `MV`/`SH` program ids an
enrichment `seriesDescription` replaces the stored description only if
strictly longer. -/

def mergeDescGrid (p : Prog) (d : String) : Prog :=
  if d ≠ "" then { p with description := some d } else p

def mergeDescEnrich (cp : String) (p : Prog) (d : String) : Prog :=
  if strStartsWith cp "MV" || strStartsWith cp "SH" then
    if d ≠ "" ∧ (p.description.getD "").length < d.length then
      { p with description := some d }
    else p
  else p

/-- A description candidate, tagged with the code path it arrives on. -/
inductive DescCand
  | grid (d : String)
  | enrich (d : String)
deriving Repr, DecidableEq

def applyDescCand (cp : String) (p : Prog) : DescCand → Prog
  | .grid d => mergeDescGrid p d
  | .enrich d => mergeDescEnrich cp p d

def mergeDescList (cp : String) (p : Prog) (cs : List DescCand) : Prog :=
  cs.foldl (applyDescCand cp) p

/-! ## Rating merging (C8)

`parse_json` lines 1051-1053: a non-empty event `rating` overwrites
unconditionally.  `parse_tvg_details` lines 925-927: a `rating` key in the
details payload is stored only when no rating is stored yet and the value
is not the `'NR'` sentinel. -/

def mergeRatingGrid (p : Prog) (r : String) : Prog :=
  if r ≠ "" then { p with rating := some r } else p

def mergeRatingDetails (p : Prog) (r : Option String) : Prog :=
  match r with
  | none => p
  | some v =>
    match p.rating with
    | some _ => p
    | none => if v ≠ "NR" then { p with rating := some v } else p

/-- A rating observation: `grid r` is an event with `rating` field `r`
(`""` when absent); `details r` is a details payload whose `program` dict
has (`some r`) or lacks (`none`) a `rating` key. -/
inductive RatingObs
  | grid (r : String)
  | details (r : Option String)
deriving Repr, DecidableEq

def applyRatingObs (p : Prog) : RatingObs → Prog
  | .grid r => mergeRatingGrid p r
  | .details r => mergeRatingDetails p r

def mergeRatingList (p : Prog) (obs : List RatingObs) : Prog :=
  obs.foldl applyRatingObs p

/-! ## originalAirDate (C6)

`set_original_air_date` (lines 1200-1206): earliest-wins backfill from a
new/live airing's start time, guarded by the id shape.
`post_json_overview` lines 1181-1194: for `EP` ids, take the date from the
`upcomingEpisode` sub-record (or the first matching entry of
`upcomingEpisodeTab`) whose `tmsID` matches the program id
case-insensitively and whose date is neither empty nor the
`'1000-01-01T00:00Z'` sentinel — and store it unconditionally. -/

def set_original_air_date (cp : String) (p : Prog) (sch : Int) : Prog :=
  if ¬(strStartsWith cp "EP" || strStartsWith cp "SH" || strStartsWith cp "MV") ||
      cp.data.length < 10 || (strSlice cp 10 14 = "0000") then p
  else
    match p.originalAirDate with
    | none => { p with originalAirDate := some sch }
    | some o => if sch < o then { p with originalAirDate := some sch } else p

structure UpcomingEp where
  tmsID : String
  originalAirDate : String
deriving Repr, DecidableEq

/-- The filter of lines 1184-1185 / 1190-1191: case-insensitive id match,
date neither empty nor the sentinel. -/
def ueMatches (cp : String) (ue : UpcomingEp) : Bool :=
  strToLower ue.tmsID = strToLower cp &&
    ue.originalAirDate ≠ "" && ue.originalAirDate ≠ "1000-01-01T00:00Z"

/-- `post_json_overview` lines 1181-1194.  `ue` is
`overviewTab.upcomingEpisode`; `tab` is `upcomingEpisodeTab` (the for-loop
stops at its first match). -/
def enrichOAD (cp : String) (p : Prog) (ue : UpcomingEp) (tab : List UpcomingEp) : Prog :=
  if strStartsWith cp "EP" then
    if ueMatches cp ue then
      { p with originalAirDate := some (str2time2 ue.originalAirDate * 1000) }
    else
      match tab.find? (ueMatches cp) with
      | some u => { p with originalAirDate := some (str2time2 u.originalAirDate * 1000) }
      | none => p
  else p

/-! ## Genres (C9)

`parse_json` inserts grid `filter` genres with ranks 1, 2, …;
`post_json_overview` lines 1124-1135 appends `seriesGenres` entries not
already present, continuing after the current maximum rank (starting at 2
when the genre dict is empty).  `print_programmes` lines 1523-1527 emits
the genres sorted by the key tuple `(rank, name)`. -/

def lookupGenre (gs : List (String × Nat)) (name : String) : Option Nat :=
  match gs.find? (fun p => p.1 = name) with
  | some p => some p.2
  | none => none

/-- `max(gh.values())` with the Python guard `if gh else 0`. -/
def maxRank (gs : List (String × Nat)) : Nat :=
  gs.foldl (fun m p => max m p.2) 0

/-- `post_json_overview` lines 1124-1135: `i = max_val + 1 if max_val else 2`,
then each not-yet-present lower-cased series genre is appended at rank `i`,
incrementing `i`. -/
def enrichSeriesGenres (gs : List (String × Nat)) (sgs : List String) : List (String × Nat) :=
  let maxVal := maxRank gs
  let i0 := if maxVal ≠ 0 then maxVal + 1 else 2
  (sgs.foldl
    (fun (st : List (String × Nat) × Nat) sg =>
      let sgl := strToLower sg
      if (st.1.find? (fun p => p.1 = sgl)).isSome then st
      else (st.1 ++ [(sgl, st.2)], st.2 + 1))
    (gs, i0)).1

/-- `sorted(..., key=lambda x: (rank, name))`: ≤ on the Python key tuple. -/
def genreKeyLe (a b : Nat × String) : Bool :=
  decide (a.1 < b.1) || (decide (a.1 = b.1) && !charListLt b.2.data a.2.data)

def insertSorted (le : α → α → Bool) (x : α) : List α → List α
  | [] => [x]
  | y :: ys => if le x y then x :: y :: ys else y :: insertSorted le x ys

def insertionSortLe (le : α → α → Bool) : List α → List α
  | [] => []
  | x :: xs => insertSorted le x (insertionSortLe le xs)

/-- The renderer's genre emission order (`print_programmes` lines
1523-1527): names sorted by `(rank, name)` ascending. -/
def genreOrder (gs : List (String × Nat)) : List String :=
  (insertionSortLe genreKeyLe (gs.map (fun p => (p.2, p.1)))).map (fun p => p.2)

/-! ## Placeholder-title matching and cache eviction (C5)

`self.sTBA = r"\bTBA\b|To Be Announced"`, searched case-insensitively with
`re.search` (`parse_json` lines 995-997 sets `self.tba = 1` as soon as ONE
title matches).  `process_data` lines 499-507 then deletes the cache file
when `noTbaCache and self.tba` or when `self.exp` is truthy; `parse_json`
never assigns `self.exp`, so the grid parser leaves it at 0. -/

def isWordChar (c : Char) : Bool := c.isAlpha || c.isDigit || c = '_'

/-- `\bTBA\b` at the head of `l` (already lower-cased), with `prev` the
character before `l` (`none` at the start of the string). -/
def tbaAt (prev : Option Char) : List Char → Bool
  | 't' :: 'b' :: 'a' :: rest =>
      (match prev with
       | none => true
       | some c => !isWordChar c) &&
      (match rest with
       | [] => true
       | c :: _ => !isWordChar c)
  | _ => false

def tbaSearch (prev : Option Char) : List Char → Bool
  | [] => false
  | c :: rest => tbaAt prev (c :: rest) || tbaSearch (some c) rest

/-- `re.search(r"\bTBA\b|To Be Announced", t, re.I)` as a Boolean. -/
def matchesTBA (t : String) : Bool :=
  let l := t.data.map Char.toLower
  tbaSearch none l || containsSubList "to be announced".data l

/-- `parse_json`'s effect on the per-bucket flags: `tba` becomes 1 when any
parsed title matches the placeholder pattern; `exp` is never written. -/
structure ParseFlags where
  tba : Bool
  exp : Bool
deriving Repr, DecidableEq

def parseJsonFlags (titles : List String) : ParseFlags :=
  ⟨titles.any matchesTBA, false⟩

/-- `process_data` lines 499-504: delete the cache file iff
`noTbaCache and tba` or `exp`. -/
def deleteAfterParse (noTbaCache tba exp : Bool) : Bool :=
  (noTbaCache && tba) || exp

/-! ## Cache hit/miss decision (C4)

`process_options` line 413 rebases the no-cache-day threshold:
`self.ncdays = self.days - self.ncdays`.  `process_data` line 485 then
forces a fetch iff the cache file is absent, `curday > ncdays`,
`curday <= ncsdays`, or `curday == ncmday`. -/

def ncdaysRelative (days ncdays : Int) : Int := days - ncdays

def forcedFetch (cacheExists : Bool) (curday ncdays ncsdays ncmday : Int) : Bool :=
  !cacheExists || decide (ncdays < curday) || decide (curday ≤ ncsdays) ||
    decide (curday = ncmday)

/-- The same decision as the spec words it: cache file absent, or the
1-based day index after the days-from-end threshold (days − ncdays), at or
before the days-from-start threshold, or equal to the specific no-cache
day. -/
def fetchDecisionSpec (cacheExists : Bool) (curday days ncdaysOrig ncsdays ncmday : Int) : Prop :=
  cacheExists = false ∨ days - ncdaysOrig < curday ∨ curday ≤ ncsdays ∨ curday = ncmday

/-! ## Retried fetch and the bucket loop (C7)

`get_url` (lines 1239-1272): up to `retries` attempts; an attempt returns
the body on status 200 with non-empty content, returns `""` on status 500
whose body contains `"Could not load details"`, and otherwise retries.
After exhaustion, with `er` set (as at every grid call site) it returns
`""` instead of raising.  `process_data` (lines 477-508): per bucket,
reuse the cache or fetch; `if not rs: break` stops the bucket loop on an
empty fetch result, and the run then proceeds to write the output from
whatever was accumulated. -/

/-- Outcome of one HTTP attempt: a response with status and body, or a
raised exception. -/
inductive Attempt
  | resp (status : Int) (content : String)
  | exn
deriving Repr, DecidableEq

def containsDetailsErr (s : String) : Bool :=
  containsSubList "Could not load details".data s.data

/-- The retry loop of `get_url`, over the (at most `retries`) attempt
outcomes; `none` means the retry budget was exhausted.  The branch
structure mirrors the Python `if / elif / else`. -/
def getUrlGo : List Attempt → Option String
  | [] => none
  | .resp st c :: rest =>
    if st = 200 ∧ c ≠ "" then some c
    else if st = 500 ∧ containsDetailsErr c = true then some ""
    else getUrlGo rest
  | .exn :: rest => getUrlGo rest

/-- `get_url` with error flag `er`: on exhaustion, `er = true` yields a
normal (empty) return, `er = false` raises. -/
def get_url (attempts : List Attempt) (er : Bool) : Except Unit String :=
  match getUrlGo attempts with
  | some c => .ok c
  | none => if er then .ok "" else .error ()

/-- An attempt the loop does not return from. -/
def attemptFails : Attempt → Bool
  | .exn => true
  | .resp st c => !(decide (st = 200 ∧ c ≠ "")) &&
      !(decide (st = 500 ∧ containsDetailsErr c = true))

/-- One time bucket of the grid loop: either the cached payload is reused,
or a fetch (with its attempt outcomes) is forced. -/
structure Bucket where
  mustFetch : Bool
  cachePayload : String
  attempts : List Attempt
deriving Repr, DecidableEq

/-- The per-bucket payload acquisition; `none` is the `if not rs: break`
case. -/
def bucketFetch (b : Bucket) : Option String :=
  if b.mustFetch then
    match get_url b.attempts true with
    | .ok c => if c = "" then none else some c
    | .error _ => none
  else some b.cachePayload

/-- The bucket iteration of `process_data`: accumulate parsed payloads,
halting (but not aborting) at the first empty fetch result. -/
def processData : List Bucket → List String
  | [] => []
  | b :: rest =>
    match bucketFetch b with
    | none => []
    | some payload => payload :: processData rest

/-- `write_output_file` runs unconditionally after `process_data`: the
document is a total function of the accumulated results. -/
def renderDoc (payloads : List String) : String :=
  String.join payloads

def runPipeline (buckets : List Bucket) : String :=
  renderDoc (processData buckets)

/-! ## XMLTV schedule assembly (C2)

`print_programmes` lines 1444-1472, per station, over the airings sorted
ascending by start time: the last airing is deleted (not emitted) when it
has no `'endtime'` key; every other airing is emitted with stop time = its
explicit `'endtime'` when present, else the next airing's start time. -/

/-- A station airing as the renderer sees it: `endtime` mirrors presence of
the lower-case `'endtime'` dict key (absent on every entry built by
`parse_json`, present on every entry built by `parse_tvg_grid`). -/
structure Airing where
  time : Int
  endtime : Option Int
  program : String
deriving Repr, DecidableEq

/-- The while loop of `print_programmes` on one station's sorted airing
list, returning each emitted airing with its resolved stop time. -/
def assembleStation : List Airing → List (Airing × Int)
  | [] => []
  | [a] =>
    match a.endtime with
    | none => []
    | some e => [(a, e)]
  | a :: b :: rest => (a, a.endtime.getD b.time) :: assembleStation (b :: rest)

/-- The assembly rule as the spec words it: every airing but the last is
paired with its explicit end time, defaulting to its successor's start
time; the last airing is emitted only with an explicit end time. -/
def assembleSpec (l : List Airing) : List (Airing × Int) :=
  (l.zip l.tail).map (fun p => (p.1, p.1.endtime.getD p.2.time)) ++
    (match l.getLast? with
     | none => []
     | some a =>
       match a.endtime with
       | none => []
       | some e => [(a, e)])

/-! ## XTVD schedules section (C3)

`print_schedules_xtvd` lines 1653-1680, per station, over the sorted key
array: emit one record per index `i < n-1` and advance; at `i = n-1`,
delete the dict entry and `continue` WITHOUT advancing `i`, so the loop
re-enters the same branch and the second `del` raises `KeyError`.  The
model returns the start keys emitted so far; the error value carries them
because the records were already written to the file before the raise. -/

def xtvdStation (keys : List Int) : List Int → Nat → List Int → Nat →
    Except (String × List Int) (List Int)
  | _, _, acc, 0 => .error ("out of fuel", acc)
  | dict, i, acc, fuel + 1 =>
    if i < keys.length then
      let s := keys.getD i 0
      if i = keys.length - 1 then
        if s ∈ dict then xtvdStation keys (dict.erase s) i acc fuel
        else .error ("KeyError", acc)
      else xtvdStation keys dict (i + 1) (acc ++ [s]) fuel
    else .ok acc

/-- Render one station's schedules section from the sorted start keys of
its airing dict (all keys initially present). -/
def xtvdScheduleSection (keys : List Int) (fuel : Nat) :
    Except (String × List Int) (List Int) :=
  xtvdStation keys keys 0 [] fuel

/-! ## Helper lemmas -/

theorem assembleSpec_nil : assembleSpec [] = [] := rfl

theorem assembleSpec_singleton (a : Airing) :
    assembleSpec [a] =
      (match a.endtime with
       | none => []
       | some e => [(a, e)]) := by
  simp [assembleSpec]

theorem assembleSpec_cons_cons (a b : Airing) (rest : List Airing) :
    assembleSpec (a :: b :: rest) =
      (a, a.endtime.getD b.time) :: assembleSpec (b :: rest) := by
  simp [assembleSpec, List.zip_cons_cons, List.getLast?_cons_cons]

theorem assembleStation_eq_assembleSpec : ∀ l : List Airing,
    assembleStation l = assembleSpec l
  | [] => rfl
  | [a] => by rw [assembleSpec_singleton]; rfl
  | a :: b :: rest => by
    rw [assembleSpec_cons_cons, show assembleStation (a :: b :: rest)
        = (a, a.endtime.getD b.time) :: assembleStation (b :: rest) from rfl,
      assembleStation_eq_assembleSpec (b :: rest)]

theorem getUrlGo_of_fails : ∀ l : List Attempt,
    (∀ a ∈ l, attemptFails a = true) → getUrlGo l = none
  | [], _ => rfl
  | a :: rest, h => by
    have ha := h a (by simp)
    have hrest := getUrlGo_of_fails rest (fun x hx => h x (by simp [hx]))
    cases a with
    | exn => simpa [getUrlGo] using hrest
    | resp st c =>
      simp only [attemptFails, Bool.and_eq_true, Bool.not_eq_true',
        decide_eq_false_iff_not] at ha
      simp only [getUrlGo]
      rw [if_neg ha.1, if_neg ha.2]
      exact hrest

theorem processData_append_halt (pre post : List Bucket) (b : Bucket)
    (hpre : ∀ x ∈ pre, bucketFetch x ≠ none) (hb : bucketFetch b = none) :
    processData (pre ++ b :: post) = processData pre := by
  induction pre with
  | nil => simp [processData, hb]
  | cons x xs ih =>
    have hx := hpre x (by simp)
    cases hfx : bucketFetch x with
    | none => exact absurd hfx hx
    | some payload =>
      simp only [List.cons_append, processData, hfx]
      exact congrArg (payload :: ·) (ih (fun y hy => hpre y (by simp [hy])))

theorem mergeRatingList_noop : ∀ (p : Prog) (l : List RatingObs),
    (∀ x ∈ l, x = RatingObs.grid "" ∨ x = RatingObs.details none) →
    mergeRatingList p l = p
  | _, [], _ => rfl
  | p, x :: rest, h => by
    have hx := h x (by simp)
    have hr := mergeRatingList_noop p rest (fun y hy => h y (by simp [hy]))
    rcases hx with hx | hx <;> subst hx <;>
      simpa [mergeRatingList, applyRatingObs, mergeRatingGrid,
        mergeRatingDetails] using hr

theorem lookupAssoc_insertAssoc : ∀ (l : List (Int × SchedEntry)) (k : Int)
    (v : SchedEntry), lookupAssoc (insertAssoc l k v) k = some v
  | [], k, v => by simp [insertAssoc, lookupAssoc, List.find?]
  | p :: rest, k, v => by
    have ih := lookupAssoc_insertAssoc rest k v
    by_cases hk : p.1 = k
    · simp [insertAssoc, hk, lookupAssoc, List.find?]
    · simp only [insertAssoc, if_neg hk, lookupAssoc, List.find?] at *
      simpa [hk] using ih

/-! ## Claim theorems -/

/-- C1, counterexample: grid-payload description candidates overwrite
unconditionally (`parse_json` lines 1003-1005), so a length-20 candidate
followed by a length-10 candidate ends at the length-10 string — the
stored description is not the longest candidate seen. -/
theorem c1_desc_counterexample :
    (mergeDescList "MV0001" {}
      [DescCand.grid "aaaaaaaaaaaaaaaaaaaa", DescCand.grid "bbbbbbbbbb"]).description
        = some "bbbbbbbbbb" ∧
    ("aaaaaaaaaaaaaaaaaaaa" : String).length = 20 ∧
    ("bbbbbbbbbb" : String).length = 10 := by
  refine ⟨rfl, rfl, rfl⟩

/-- C1, amended: a non-empty grid candidate always overwrites the stored
description (last-write-wins), while an enrichment candidate for an MV/SH
program replaces it only if strictly longer (otherwise the program is
unchanged); hence candidates of length 10 then 20 end at the length-20
string on either path, but grid candidates of length 20 then 10 end at the
length-10 string. -/
theorem c1_desc_policy :
    (∀ (p : Prog) (d : String), d ≠ "" →
        (mergeDescGrid p d).description = some d) ∧
    (∀ (cp : String) (p : Prog) (d : String),
        (strStartsWith cp "MV" || strStartsWith cp "SH") = true → d ≠ "" →
        (p.description.getD "").length < d.length →
        (mergeDescEnrich cp p d).description = some d) ∧
    (∀ (cp : String) (p : Prog) (d : String),
        ¬ (p.description.getD "").length < d.length →
        mergeDescEnrich cp p d = p) ∧
    (mergeDescList "MV0001" {}
      [DescCand.grid "bbbbbbbbbb", DescCand.grid "aaaaaaaaaaaaaaaaaaaa"]).description
        = some "aaaaaaaaaaaaaaaaaaaa" ∧
    (mergeDescList "MV0001" {}
      [DescCand.grid "bbbbbbbbbb", DescCand.enrich "aaaaaaaaaaaaaaaaaaaa"]).description
        = some "aaaaaaaaaaaaaaaaaaaa" := by
  refine ⟨?_, ?_, ?_, rfl, rfl⟩
  · intro p d hd
    simp [mergeDescGrid, hd]
  · intro cp p d hcp hd hlen
    simp [mergeDescEnrich, hcp, hd, hlen]
  · intro cp p d hlen
    unfold mergeDescEnrich
    split
    · rw [if_neg (fun hc => hlen hc.2)]
    · rfl

/-- C1 witness for the amended policy at concrete inputs. -/
theorem c1_desc_policy_witness :
    (mergeDescGrid {} "x").description = some "x" ∧
    (mergeDescEnrich "MV1" {} "xy").description = some "xy" ∧
    mergeDescEnrich "MV1" { description := some "abc" } "ab"
      = { description := some "abc" } :=
  ⟨c1_desc_policy.1 {} "x" (by decide),
   c1_desc_policy.2.1 "MV1" {} "xy" (by decide) (by decide) (by decide),
   c1_desc_policy.2.2.1 "MV1" { description := some "abc" } "ab" (by decide)⟩

/-- C2: on a station's airing sequence sorted ascending by start time, the
XMLTV renderer pairs every airing lacking an explicit end time with the
next airing's start time, keeps an explicit end time unchanged, and drops
the final airing when it still lacks one: `assembleStation` (the
`print_programmes` loop) coincides with the spec-level rule
`assembleSpec`, and the two example inputs behave as stated. -/
theorem c2_assembly :
    (∀ l : List Airing, assembleStation l = assembleSpec l) ∧
    assembleStation
        [⟨100, none, "p1"⟩, ⟨200, none, "p2"⟩, ⟨300, some 400, "p3"⟩]
      = [(⟨100, none, "p1"⟩, 200), (⟨200, none, "p2"⟩, 300),
         (⟨300, some 400, "p3"⟩, 400)] ∧
    assembleStation [⟨500, none, "p4"⟩] = [] :=
  ⟨assembleStation_eq_assembleSpec, rfl, rfl⟩

/-- C3: in XTVD mode the schedules loop deletes the final airing's dict
entry and `continue`s without advancing the index, so the next pass
re-deletes the same key and raises `KeyError` — after the earlier records
were already emitted.  A station with one airing errors immediately; a
station with two emits the first record and then errors. -/
theorem c3_xtvd_keyerror :
    xtvdScheduleSection [100] 5 = Except.error ("KeyError", []) ∧
    xtvdScheduleSection [100, 200] 10 = Except.error ("KeyError", [100]) :=
  ⟨rfl, rfl⟩

/-- C4: the fetch-vs-cache decision of `process_data` is a pure function of
cache-file existence, the bucket's 1-based day index and the no-cache
parameters: with the days-from-end threshold rebased to `days - ncdays` by
`process_options`, a fetch is forced exactly when the cache file is
absent, the day index exceeds the rebased threshold, is at or below the
days-from-start threshold, or equals the specific no-cache day. -/
theorem c4_cache_decision (cacheExists : Bool)
    (curday days ncdaysOrig ncsdays ncmday : Int) :
    forcedFetch cacheExists curday (ncdaysRelative days ncdaysOrig) ncsdays ncmday = true
      ↔ fetchDecisionSpec cacheExists curday days ncdaysOrig ncsdays ncmday := by
  cases cacheExists <;>
    simp [forcedFetch, ncdaysRelative, fetchDecisionSpec, or_assoc]

/-- C5, counterexample: `parse_json` sets the placeholder flag as soon as
one title matches, so with the no-placeholder-cache option set the cache
file of a payload titled `TBA` and `Good Show` is deleted although not
every title matches the placeholder pattern (and the expired flag is
unset). -/
theorem c5_cache_eviction_counterexample :
    deleteAfterParse true (parseJsonFlags ["TBA", "Good Show"]).tba
        (parseJsonFlags ["TBA", "Good Show"]).exp = true ∧
    matchesTBA "Good Show" = false := by
  refine ⟨rfl, rfl⟩

/-- C5, amended: after a grid payload is parsed, its cache file is deleted
exactly when the no-placeholder-cache option is set and at least one title
in the payload matches the placeholder pattern; the grid parser never sets
the expired flag, so the expired branch never fires in this mode. -/
theorem c5_cache_eviction (noTbaCache : Bool) (titles : List String) :
    deleteAfterParse noTbaCache (parseJsonFlags titles).tba (parseJsonFlags titles).exp
        = true
      ↔ (noTbaCache = true ∧ ∃ t ∈ titles, matchesTBA t = true) := by
  simp [deleteAfterParse, parseJsonFlags, List.any_eq_true]

/-- C6, counterexample: enrichment (`post_json_overview` lines 1181-1194)
stores the matching upcoming episode's date unconditionally, replacing an
already-stored earlier originalAirDate with a later one — earliest does
not win. -/
theorem c6_oad_counterexample :
    (enrichOAD "EP012345670001" { originalAirDate := some 1000 }
        ⟨"EP012345670001", "2020-01-05T00:00Z"⟩ []).originalAirDate
      = some 1578182400000 ∧
    (1000 : Int) < 1578182400000 := by
  refine ⟨rfl, by decide⟩

/-- C6, amended: for an EP-prefixed program, enrichment takes the
originalAirDate only from an upcoming-episode record whose id matches the
program id case-insensitively and whose date is neither empty nor the
sentinel (otherwise the program is unchanged), and stores it
unconditionally — overwriting any stored value; the earliest-wins policy
holds only on the grid path (`set_original_air_date`). -/
theorem c6_oad_policy :
    (∀ (cp : String) (p : Prog) (ue : UpcomingEp) (tab : List UpcomingEp),
        ueMatches cp ue = false → tab.find? (ueMatches cp) = none →
        enrichOAD cp p ue tab = p) ∧
    (∀ (cp : String) (p : Prog) (ue : UpcomingEp) (tab : List UpcomingEp),
        strStartsWith cp "EP" = true → ueMatches cp ue = true →
        (enrichOAD cp p ue tab).originalAirDate
          = some (str2time2 ue.originalAirDate * 1000)) ∧
    (∀ (cp : String) (p : Prog) (sch o : Int),
        p.originalAirDate = some o → o ≤ sch →
        (set_original_air_date cp p sch).originalAirDate = some o) := by
  refine ⟨?_, ?_, ?_⟩
  · intro cp p ue tab h1 h2
    unfold enrichOAD
    split
    · rw [if_neg (by simp [h1]), h2]
    · rfl
  · intro cp p ue tab hep hm
    simp [enrichOAD, hep, hm]
  · intro cp p sch o hp hle
    unfold set_original_air_date
    split
    · exact hp
    · rw [hp]
      simp [not_lt.mpr hle, hp]

/-- C6 witness for the amended policy at concrete inputs. -/
theorem c6_oad_policy_witness :
    enrichOAD "EP1" { originalAirDate := some 5 } ⟨"X", ""⟩ []
      = { originalAirDate := some 5 } ∧
    (enrichOAD "EP000000010001" {}
        ⟨"ep000000010001", "2021-01-01T00:00Z"⟩ []).originalAirDate
      = some (str2time2 "2021-01-01T00:00Z" * 1000) ∧
    (set_original_air_date "EP012345670001" { originalAirDate := some 5 } 7).originalAirDate
      = some 5 :=
  ⟨c6_oad_policy.1 "EP1" { originalAirDate := some 5 } ⟨"X", ""⟩ [] (by decide) rfl,
   c6_oad_policy.2.1 "EP000000010001" {} ⟨"ep000000010001", "2021-01-01T00:00Z"⟩ []
     (by decide) (by decide),
   c6_oad_policy.2.2 "EP012345670001" { originalAirDate := some 5 } 7 5 rfl (by decide)⟩

/-- C7: when every attempt of a bucket's fetch fails, `get_url` with the
error flag set returns an empty body after exhausting the retry budget
(instead of raising); the bucket loop of `process_data` then halts,
keeping the payloads of the buckets already processed, and the output
document is still rendered from them. -/
theorem c7_retry_partial_output (pre post : List Bucket) (b : Bucket)
    (hpre : ∀ x ∈ pre, bucketFetch x ≠ none) (hb : b.mustFetch = true)
    (hfail : ∀ a ∈ b.attempts, attemptFails a = true) :
    get_url b.attempts true = Except.ok "" ∧
    processData (pre ++ b :: post) = processData pre ∧
    runPipeline (pre ++ b :: post) = renderDoc (processData pre) := by
  have hgo : getUrlGo b.attempts = none := getUrlGo_of_fails b.attempts hfail
  have hget : get_url b.attempts true = Except.ok "" := by
    simp [get_url, hgo]
  have hbf : bucketFetch b = none := by
    simp [bucketFetch, hb, hget]
  have hproc := processData_append_halt pre post b hpre hbf
  exact ⟨hget, hproc, by simp [runPipeline, hproc]⟩

/-- C7 witness: a concrete run with a cached bucket, then a bucket whose
only attempts fail, then a further bucket; the output document is the one
of the first bucket alone. -/
theorem c7_retry_partial_output_witness :
    processData ([⟨false, "c0", []⟩] ++ ⟨true, "", [Attempt.exn, Attempt.resp 404 "err"]⟩
        :: [⟨false, "c2", []⟩]) = processData [⟨false, "c0", []⟩] :=
  (c7_retry_partial_output [⟨false, "c0", []⟩] [⟨false, "c2", []⟩]
    ⟨true, "", [Attempt.exn, Attempt.resp 404 "err"]⟩
    (by decide) rfl (by decide)).2.1

/-- C8, counterexample: a sequence whose only observation carrying a
non-empty rating is a details-path `"NR"` leaves the program's rating
unset — the merged result is not that rating. -/
theorem c8_rating_counterexample :
    (mergeRatingList {} [RatingObs.details (some "NR")]).rating = none ∧
    ("NR" : String) ≠ "" := by
  refine ⟨rfl, by decide⟩

/-- C8, amended: in a sequence of observations in which exactly one
carries a rating value at all (the others being grid events without a
rating or details payloads lacking the key), the final rating is that
value regardless of its position — unless the value is the `"NR"` sentinel
arriving on the details path, which is skipped and leaves the rating
unset. -/
theorem c8_rating_merge (pre post : List RatingObs) (r : String)
    (hpre : ∀ x ∈ pre, x = RatingObs.grid "" ∨ x = RatingObs.details none)
    (hpost : ∀ x ∈ post, x = RatingObs.grid "" ∨ x = RatingObs.details none)
    (hr : r ≠ "") :
    (mergeRatingList {} (pre ++ RatingObs.grid r :: post)).rating = some r ∧
    (r ≠ "NR" →
      (mergeRatingList {} (pre ++ RatingObs.details (some r) :: post)).rating = some r) ∧
    (mergeRatingList {} (pre ++ RatingObs.details (some "NR") :: post)).rating = none := by
  have h1 : mergeRatingList {} pre = {} := mergeRatingList_noop {} pre hpre
  have hstep : ∀ x : RatingObs,
      mergeRatingList ({} : Prog) (pre ++ x :: post)
        = mergeRatingList (applyRatingObs ({} : Prog) x) post := by
    intro x
    have hsplit : mergeRatingList ({} : Prog) (pre ++ x :: post)
        = mergeRatingList (applyRatingObs (mergeRatingList ({} : Prog) pre) x) post := by
      simp [mergeRatingList, List.foldl_append]
    rw [hsplit, h1]
  refine ⟨?_, ?_, ?_⟩
  · rw [hstep, mergeRatingList_noop _ post hpost]
    simp [applyRatingObs, mergeRatingGrid, hr]
  · intro hnr
    rw [hstep, mergeRatingList_noop _ post hpost]
    simp [applyRatingObs, mergeRatingDetails, hnr]
  · rw [hstep, mergeRatingList_noop _ post hpost]
    simp [applyRatingObs, mergeRatingDetails]

/-- C8 witness: a grid rating `TV-14` surrounded by observations without a
rating ends up as the stored rating. -/
theorem c8_rating_merge_witness :
    (mergeRatingList {}
      ([RatingObs.grid ""] ++ RatingObs.grid "TV-14" :: [RatingObs.details none])).rating
      = some "TV-14" :=
  (c8_rating_merge [RatingObs.grid ""] [RatingObs.details none] "TV-14"
    (by decide) (by decide) (by decide)).1

/-- C9: enriching the genre map `news ↦ 1, family ↦ 1` with the series
genre `drama` appends it at rank 2 (strictly above the current maximum),
and the renderer's (rank, name)-ascending order emits
`family, news, drama`. -/
theorem c9_genre_order :
    enrichSeriesGenres [("news", 1), ("family", 1)] ["drama"]
      = [("news", 1), ("family", 1), ("drama", 2)] ∧
    lookupGenre (enrichSeriesGenres [("news", 1), ("family", 1)] ["drama"]) "drama"
      = some 2 ∧
    maxRank [("news", 1), ("family", 1)] < 2 ∧
    genreOrder (enrichSeriesGenres [("news", 1), ("family", 1)] ["drama"])
      = ["family", "news", "drama"] := by
  refine ⟨rfl, rfl, by decide, rfl⟩

/-- C10: the schedule-timestamp parser is total; any string that does not
match `%Y-%m-%dT%H:%M:%SZ` — the empty string included — yields 0, a
well-formed timestamp yields its epoch value, and an event whose start
time fails to parse is recorded in its station's schedule keyed at time 0
(with the program reference intact) rather than aborting the parse. -/
theorem c10_time_parse_total :
    (∀ s : String, fmt1Matches s = false → str2time1 s = 0) ∧
    str2time1 "" = 0 ∧
    str2time1 "2021-01-01T00:00:00Z" = 1609459200 ∧
    (∀ (sched : List (Int × SchedEntry)) (cs cp startS endS : String),
        fmt1Matches startS = false →
        lookupAssoc (scheduleInsert sched cs cp startS endS) 0
          = some ⟨0, str2time1 endS * 1000, cp, cs⟩) := by
  have hpart1 : ∀ s : String, fmt1Matches s = false → str2time1 s = 0 := by
    intro s h
    unfold fmt1Matches at h
    unfold str2time1
    cases hp : parseFmt true s.data with
    | none => rfl
    | some v => rw [hp] at h; simp at h
  refine ⟨hpart1, rfl, by decide, ?_⟩
  intro sched cs cp startS endS h
  have h0 := hpart1 startS h
  simp only [scheduleInsert, h0, zero_mul]
  exact lookupAssoc_insertAssoc sched 0 _

/-- C10 witness: the malformed start time `oops` yields timestamp 0 and an
airing keyed at 0. -/
theorem c10_time_parse_total_witness :
    str2time1 "oops" = 0 ∧
    lookupAssoc (scheduleInsert [] "1.1001" "EP1" "oops" "") 0
      = some ⟨0, str2time1 "" * 1000, "EP1", "1.1001"⟩ :=
  ⟨c10_time_parse_total.1 "oops" (by decide),
   c10_time_parse_total.2.2.2 [] "1.1001" "EP1" "oops" "" (by decide)⟩

end Zap2xml

